import Mathlib

/-!
Shallow embedding of the cart/order consistency logic of a small e-commerce
storefront (cart controller, order controller, auth controller's guest-cart
merge, and the store adapter semantics they rely on).

The relational store is modelled as explicit lists of rows; `database.get`
becomes `List.find?`, `database.query` with a WHERE clause becomes
`List.filter`, `UPDATE ... WHERE` becomes `List.map` guarded on the key,
`DELETE ... WHERE` becomes `List.filter` on the negated key.  Decimal
arithmetic (MySQL DECIMAL columns and JavaScript number arithmetic on their
values) is modelled over `ℚ`; two-decimal half-up rounding (both MySQL
`ROUND(x, 2)` on non-negative decimals and `Math.round(x*100)/100`) is
`round2`.  Fallible store operations are modelled, where a claim needs them,
by an explicit failure oracle numbering the write operations in program
order.
-/

set_option autoImplicit false

namespace Shop

/-- Two-decimal half-up rounding: `Math.round(x * 100) / 100`, and MySQL
`ROUND(x, 2)` for the non-negative decimals that occur here. -/
def round2 (x : ℚ) : ℚ := (⌊x * 100 + 1 / 2⌋ : ℤ) / 100

/-- JavaScript `parseInt` applied to a numeric value: truncation toward
zero. -/
def jsTrunc (x : ℚ) : Int := if x < 0 then ⌈x⌉ else ⌊x⌋

/-- The quantity coercion in `addToCart`: `const qty = parseInt(quantity) || 1`.
`none` stands for an absent / non-numeric body value (`parseInt` gives `NaN`,
which is falsy); a value truncating to `0` is falsy as well, so both fall
back to the default `1`. -/
def coerceQty (q : Option ℚ) : Int :=
  match q with
  | none => 1
  | some x => if jsTrunc x = 0 then 1 else jsTrunc x

/-- A row of the `products` table (the columns the cart/order logic reads). -/
structure Product where
  product_id : Nat
  product_name : String
  price : ℚ
  discount_percentage : ℚ
  stock_quantity : Int
  is_active : Bool
deriving Repr, DecidableEq

/-- A row of the `cart_items` table. -/
structure CartLine where
  cart_id : Nat
  user_id : Option Nat
  session_id : Option String
  product_id : Nat
  quantity : Int
deriving Repr, DecidableEq

/-- A row of the `orders` table (the columns `createOrder` writes). -/
structure OrderRow where
  order_id : Nat
  user_id : Option Nat
  total_amount : ℚ
  order_status : String
  shipping_address : String
  customer_email : String
deriving Repr, DecidableEq

/-- A row of the `order_items` table. -/
structure OrderItem where
  order_id : Nat
  product_id : Nat
  product_name : String
  quantity : Int
  unit_price : ℚ
  subtotal : ℚ
deriving Repr, DecidableEq

/-- The relational store reachable through the database adapter, together
with the auto-increment counters backing `lastID`. -/
structure Store where
  products : List Product
  cart_items : List CartLine
  orders : List OrderRow
  order_items : List OrderItem
  next_cart_id : Nat
  next_order_id : Nat
deriving Repr, DecidableEq

/-- Error outcomes of the cart controller endpoints (each corresponds to a
distinct non-2xx response of the source). -/
inductive CartError where
  | productIdRequired
  | invalidQuantity
  | productNotFound
  | productInactive
  | insufficientStock (available : Int)
  | cartItemNotFound
  | storeError
deriving Repr, DecidableEq

/-- The `action` field of a successful `addToCart` response. -/
inductive AddAction where
  | added
  | updated
deriving Repr, DecidableEq

/-- The `data` of a successful `addToCart` response. -/
structure AddResult where
  cart_id : Nat
  product_id : Nat
  quantity : Int
  action : AddAction
deriving Repr, DecidableEq

/-- Ownership predicate used by the cart-line lookups: for a logged-in user
the row must match `user_id = ?`; otherwise, for a guest session, it must
match `session_id = ? AND user_id IS NULL`; with no identity nothing
matches. -/
def ownPred (uid : Option Nat) (sid : Option String) (pid : Nat)
    (l : CartLine) : Bool :=
  match uid with
  | some u => l.user_id == some u && l.product_id == pid
  | none =>
    match sid with
    | some sv => l.session_id == some sv && l.user_id == none && l.product_id == pid
    | none => false

/-- The owner's cart lines for one product, as selected by the `addToCart`
existing-item lookup. -/
def ownerPidLines (uid : Option Nat) (sid : Option String) (pid : Nat)
    (s : Store) : List CartLine :=
  s.cart_items.filter (ownPred uid sid pid)

/-- `addToCart` (cart controller): validates the body, resolves the product,
then either increments an existing line for this owner and product or
inserts a fresh line carrying `userId || null` and `sessionId || null`. -/
def addToCart (uid : Option Nat) (sid : Option String) (pid? : Option Nat)
    (quantity : Option ℚ) (s : Store) : Store × Except CartError AddResult :=
  match pid? with
  | none => (s, .error .productIdRequired)
  | some pid =>
    if pid = 0 then (s, .error .productIdRequired)
    else
      let qty := coerceQty quantity
      if qty < 1 then (s, .error .invalidQuantity)
      else
        match s.products.find? (fun p => p.product_id == pid) with
        | none => (s, .error .productNotFound)
        | some product =>
          if ¬ product.is_active then (s, .error .productInactive)
          else
            match s.cart_items.find? (ownPred uid sid pid) with
            | some existingItem =>
              let newQuantity := existingItem.quantity + qty
              if newQuantity > product.stock_quantity then
                (s, .error (.insufficientStock product.stock_quantity))
              else
                ({ s with cart_items := s.cart_items.map (fun l =>
                    if l.cart_id == existingItem.cart_id then
                      { l with quantity := newQuantity } else l) },
                 .ok ⟨existingItem.cart_id, pid, newQuantity, .updated⟩)
            | none =>
              if qty > product.stock_quantity then
                (s, .error (.insufficientStock product.stock_quantity))
              else
                ({ s with
                    cart_items := s.cart_items ++
                      [⟨s.next_cart_id, uid, sid, pid, qty⟩],
                    next_cart_id := s.next_cart_id + 1 },
                 .ok ⟨s.next_cart_id, pid, qty, .added⟩)

/-- Ownership lookup shared by `updateCartItem` and `removeCartItem`:
`cart_id = ? AND user_id = ?` for a user, or
`cart_id = ? AND session_id = ? AND user_id IS NULL` for a guest session. -/
def ownItemPred (uid : Option Nat) (sid : Option String) (cid : Nat)
    (l : CartLine) : Bool :=
  match uid with
  | some u => l.cart_id == cid && l.user_id == some u
  | none =>
    match sid with
    | some sv => l.cart_id == cid && l.session_id == some sv && l.user_id == none
    | none => false

/-- The `data` of a successful `updateCartItem` response. -/
structure UpdateResult where
  cart_id : Nat
  quantity : Int
  subtotal : ℚ
deriving Repr, DecidableEq

/-- `updateCartItem` (cart controller): rejects a falsy or below-1 quantity,
checks ownership of the row, re-validates stock, then writes the new
quantity and reports the discounted subtotal. -/
def updateCartItem (uid : Option Nat) (sid : Option String) (cid : Nat)
    (quantity : Option ℚ) (s : Store) : Store × Except CartError UpdateResult :=
  match quantity with
  | none => (s, .error .invalidQuantity)
  | some qRaw =>
    if qRaw < 1 then (s, .error .invalidQuantity)
    else
      let qty := jsTrunc qRaw
      match s.cart_items.find? (ownItemPred uid sid cid) with
      | none => (s, .error .cartItemNotFound)
      | some cartItem =>
        match s.products.find? (fun p => p.product_id == cartItem.product_id) with
        | none => (s, .error .storeError)
        | some product =>
          if qty > product.stock_quantity then
            (s, .error (.insufficientStock product.stock_quantity))
          else
            ({ s with cart_items := s.cart_items.map (fun l =>
                if l.cart_id == cid then { l with quantity := qty } else l) },
             .ok ⟨cid, qty,
                  round2 ((product.price -
                    product.price * product.discount_percentage / 100) * (qty : ℚ))⟩)

/-- `removeCartItem` (cart controller): ownership-checked delete of one cart
row. -/
def removeCartItem (uid : Option Nat) (sid : Option String) (cid : Nat)
    (s : Store) : Store × Except CartError Unit :=
  match s.cart_items.find? (ownItemPred uid sid cid) with
  | none => (s, .error .cartItemNotFound)
  | some _ =>
    ({ s with cart_items := s.cart_items.filter (fun l => ! (l.cart_id == cid)) },
     .ok ())

/-- Owner filter of `getCartCount`: the same WHERE clauses as the cart
queries, with no join against `products`. -/
def countLines (uid : Option Nat) (sid : Option String) (s : Store) :
    List CartLine :=
  match uid with
  | some u => s.cart_items.filter (fun l => l.user_id == some u)
  | none =>
    match sid with
    | some sv => s.cart_items.filter (fun l =>
        l.session_id == some sv && l.user_id == none)
    | none => []

/-- `getCartCount` (cart controller): `SELECT COALESCE(SUM(quantity), 0)`
over the owner's cart rows, `0` when the caller has no identity. -/
def getCartCount (uid : Option Nat) (sid : Option String) (s : Store) : Int :=
  ((countLines uid sid s).map (fun l => l.quantity)).sum

/-- A row of the `getCart` result set, with the three projected columns the
SQL computes: `ROUND(price * quantity, 2)`, the rounded discounted price and
the rounded discounted subtotal. -/
structure CartItemRow where
  cart_id : Nat
  product_id : Nat
  quantity : Int
  price : ℚ
  discount_percentage : ℚ
  stock_quantity : Int
  subtotal : ℚ
  discounted_price : ℚ
  discounted_subtotal : ℚ
deriving Repr, DecidableEq

/-- The projection of one joined `cart_items × products` row, exactly as the
`getCart` SELECT list computes it. -/
def toCartItemRow (l : CartLine) (p : Product) : CartItemRow :=
  { cart_id := l.cart_id
    product_id := l.product_id
    quantity := l.quantity
    price := p.price
    discount_percentage := p.discount_percentage
    stock_quantity := p.stock_quantity
    subtotal := round2 (p.price * (l.quantity : ℚ))
    discounted_price :=
      round2 (p.price - p.price * p.discount_percentage / 100)
    discounted_subtotal :=
      round2 ((p.price - p.price * p.discount_percentage / 100) * (l.quantity : ℚ)) }

/-- The `getCart` result rows: the owner's cart lines inner-joined with
`products` and restricted to `p.is_active = TRUE`. -/
def getCartItems (uid : Option Nat) (sid : Option String) (s : Store) :
    List CartItemRow :=
  (countLines uid sid s).filterMap (fun l =>
    match s.products.find? (fun p => p.product_id == l.product_id) with
    | some p => if p.is_active then some (toCartItemRow l p) else none
    | none => none)

/-- The cart summary block of a `getCart` response. -/
structure CartSummary where
  total_items : Int
  subtotal : ℚ
  discount_amount : ℚ
  total_amount : ℚ
deriving Repr, DecidableEq

/-- `getCart`'s summary as the code computes it: each component sums the
already-rounded per-row columns of the result set, and the three monetary
sums are then rounded again with `Math.round(x * 100) / 100`. -/
def getCartSummary (uid : Option Nat) (sid : Option String) (s : Store) :
    CartSummary :=
  if uid = none ∧ sid = none then ⟨0, 0, 0, 0⟩
  else
    let items := getCartItems uid sid s
    { total_items := (items.map (fun i => i.quantity)).sum
      subtotal := round2 ((items.map (fun i => i.subtotal)).sum)
      discount_amount :=
        round2 ((items.map (fun i => i.subtotal - i.discounted_subtotal)).sum)
      total_amount := round2 ((items.map (fun i => i.discounted_subtotal)).sum) }

/-- Modelled from the spec: the summary the specification describes, in which
line-level values stay at full precision and each summary component is the
full-precision sum over all lines rounded exactly once at the summary
level. -/
def getCartSummarySpec (uid : Option Nat) (sid : Option String) (s : Store) :
    CartSummary :=
  if uid = none ∧ sid = none then ⟨0, 0, 0, 0⟩
  else
    let items := getCartItems uid sid s
    { total_items := (items.map (fun i => i.quantity)).sum
      subtotal := round2 ((items.map (fun i => i.price * (i.quantity : ℚ))).sum)
      discount_amount :=
        round2 ((items.map (fun i =>
          i.price * (i.quantity : ℚ) -
            (i.price - i.price * i.discount_percentage / 100) * (i.quantity : ℚ))).sum)
      total_amount :=
        round2 ((items.map (fun i =>
          (i.price - i.price * i.discount_percentage / 100) * (i.quantity : ℚ))).sum) }

/-- Error outcomes of `createOrder`. `storeFailure` is the generic 500 the
catch block produces when a database operation throws mid-sequence. -/
inductive OrderError where
  | missingShippingInfo
  | emptyCart
  | insufficientStockFor (product_name : String)
  | storeFailure
deriving Repr, DecidableEq

/-- The `data` of a successful `createOrder` response. -/
structure OrderResult where
  orderId : Nat
  totalAmount : ℚ
deriving Repr, DecidableEq

/-- The cart rows `createOrder` loads: `c.user_id = ?` for a user, otherwise
`c.session_id = ?` (a null session parameter matches no row). -/
def orderCartLines (uid : Option Nat) (sid : Option String) (s : Store) :
    List CartLine :=
  match uid with
  | some u => s.cart_items.filter (fun l => l.user_id == some u)
  | none =>
    match sid with
    | some sv => s.cart_items.filter (fun l => l.session_id == some sv)
    | none => []

/-- The `createOrder` cart query joined with live product data
(`JOIN products ON c.product_id = p.product_id`). -/
def orderCartJoin (uid : Option Nat) (sid : Option String) (s : Store) :
    List (CartLine × Product) :=
  (orderCartLines uid sid s).filterMap (fun l =>
    (s.products.find? (fun p => p.product_id == l.product_id)).map
      (fun p => (l, p)))

/-- One element of `orderItemsData`: the computed per-line snapshot
`createOrder` accumulates before writing. -/
def toOrderItemData (lp : CartLine × Product) : OrderItem :=
  let finalPrice :=
    lp.2.price - lp.2.price * lp.2.discount_percentage / 100
  { order_id := 0
    product_id := lp.1.product_id
    product_name := lp.2.product_name
    quantity := lp.1.quantity
    unit_price := finalPrice
    subtotal := finalPrice * (lp.1.quantity : ℚ) }

/-- Decrement a product's `stock_quantity` by a purchased quantity
(`UPDATE products SET stock_quantity = stock_quantity - ? WHERE product_id = ?`). -/
def decStock (pid : Nat) (q : Int) (s : Store) : Store :=
  { s with products := s.products.map (fun p =>
      if p.product_id == pid then
        { p with stock_quantity := p.stock_quantity - q } else p) }

/-- The write sequence of `createOrder` after the order row was inserted: for
each item, insert the `order_items` row then decrement stock, and finally
delete the owner's cart rows.  `fails` is the failure oracle over write
operations (numbered in program order, continuing from `k`); a failing write
applies nothing and the error propagates to the catch block, leaving all
earlier writes committed. -/
def orderWrites (fails : Nat → Bool) (uid : Option Nat) (sid : Option String)
    (orderId : Nat) : List OrderItem → Nat → Store →
    Store × Except OrderError Unit
  | [], k, s =>
    if fails k then (s, .error .storeFailure)
    else
      match uid with
      | some u =>
        ({ s with cart_items := s.cart_items.filter (fun l =>
            ! (l.user_id == some u)) }, .ok ())
      | none =>
        ({ s with cart_items := s.cart_items.filter (fun l =>
            ! (l.session_id == sid)) }, .ok ())
  | item :: rest, k, s =>
    if fails k then (s, .error .storeFailure)
    else
      let s1 := { s with order_items := s.order_items ++
        [{ item with order_id := orderId }] }
      if fails (k + 1) then (s1, .error .storeFailure)
      else
        orderWrites fails uid sid orderId rest (k + 2)
          (decStock item.product_id item.quantity s1)

/-- `createOrder` (order controller): shipping validation, cart load with
live product data, `EmptyCart` on an empty result, a stock re-check failing
on the first offending line, then the uninsulated write sequence (order row,
order lines, stock decrements, cart delete) under the failure oracle
`fails`; no transaction wraps the writes, so a mid-sequence failure keeps
every earlier write. -/
def createOrder (fails : Nat → Bool) (uid : Option Nat) (sid : Option String)
    (shipping_address customer_email full_name : Option String) (s : Store) :
    Store × Except OrderError OrderResult :=
  if shipping_address = none ∨ customer_email = none ∨ full_name = none then
    (s, .error .missingShippingInfo)
  else
    let cartItems := orderCartJoin uid sid s
    if cartItems.isEmpty then (s, .error .emptyCart)
    else
      match cartItems.find? (fun lp => lp.1.quantity > lp.2.stock_quantity) with
      | some lp => (s, .error (.insufficientStockFor lp.2.product_name))
      | none =>
        let orderItemsData := cartItems.map toOrderItemData
        let totalAmount := (orderItemsData.map (fun i => i.subtotal)).sum
        if fails 0 then (s, .error .storeFailure)
        else
          let orderId := s.next_order_id
          let s1 := { s with
            orders := s.orders ++
              [⟨orderId, uid, totalAmount,
                "Pending",
                shipping_address.getD "", customer_email.getD ""⟩],
            next_order_id := s.next_order_id + 1 }
          match orderWrites fails uid sid orderId orderItemsData 1 s1 with
          | (s2, .ok ()) => (s2, .ok ⟨orderId, totalAmount⟩)
          | (s2, .error e) => (s2, .error e)

/-- `UPDATE cart_items SET quantity = quantity + ? WHERE cart_id = ?`. -/
def bumpQty (cid : Nat) (dq : Int) (s : Store) : Store :=
  { s with cart_items := s.cart_items.map (fun l =>
      if l.cart_id == cid then { l with quantity := l.quantity + dq } else l) }

/-- `DELETE FROM cart_items WHERE cart_id = ?`. -/
def deleteLine (cid : Nat) (s : Store) : Store :=
  { s with cart_items := s.cart_items.filter (fun l => ! (l.cart_id == cid)) }

/-- `UPDATE cart_items SET user_id = ?, session_id = NULL WHERE cart_id = ?`. -/
def repoint (cid : Nat) (uid : Nat) (s : Store) : Store :=
  { s with cart_items := s.cart_items.map (fun l =>
      if l.cart_id == cid then
        { l with user_id := some uid, session_id := none } else l) }

/-- The `mergeGuestCart` lookup of the user's existing line for one
product. -/
def userLinePred (uid : Nat) (pid : Nat) (l : CartLine) : Bool :=
  l.user_id == some uid && l.product_id == pid

/-- The guest cart rows: `SELECT * FROM cart_items WHERE session_id = ?`. -/
def guestFilter (sid : String) (s : Store) : List CartLine :=
  s.cart_items.filter (fun l => l.session_id == some sid)

/-- The body of `mergeGuestCart`'s loop over the guest-item snapshot: merge
each snapshot line into the user's cart against the evolving store. -/
def mergeLoop (uid : Nat) : List CartLine → Store → Store
  | [], s => s
  | g :: gs, s =>
    match s.cart_items.find? (userLinePred uid g.product_id) with
    | some existingItem =>
      mergeLoop uid gs (deleteLine g.cart_id (bumpQty existingItem.cart_id g.quantity s))
    | none =>
      mergeLoop uid gs (repoint g.cart_id uid s)

/-- `mergeGuestCart` (auth controller) on a store whose operations all
succeed: snapshot the guest rows, return early when there are none, and
otherwise run the merge loop. -/
def mergeGuestCart (sid : String) (uid : Nat) (s : Store) : Store :=
  let guestItems := guestFilter sid s
  if guestItems.isEmpty then s else mergeLoop uid guestItems s

/-- The merge loop under a failure oracle over database operations (numbered
in program order from `k`): per guest line, the existing-item SELECT, then
either the quantity UPDATE followed by the guest-row DELETE, or the
re-pointing UPDATE.  A failing operation applies nothing and aborts the loop
with the error, keeping every earlier write. -/
def mergeLoopF (fails : Nat → Bool) (uid : Nat) :
    List CartLine → Nat → Store → Store × Except Unit Unit
  | [], _, s => (s, .ok ())
  | g :: gs, k, s =>
    if fails k then (s, .error ()) else
    match s.cart_items.find? (userLinePred uid g.product_id) with
    | some existingItem =>
      if fails (k + 1) then (s, .error ()) else
      let s1 := bumpQty existingItem.cart_id g.quantity s
      if fails (k + 2) then (s1, .error ()) else
      mergeLoopF fails uid gs (k + 3) (deleteLine g.cart_id s1)
    | none =>
      if fails (k + 1) then (s, .error ()) else
      mergeLoopF fails uid gs (k + 2) (repoint g.cart_id uid s)

/-- `mergeGuestCart` under the failure oracle: operation 0 is the guest-cart
SELECT; the function's own catch block swallows any error, so it always
returns a store and never surfaces a failure. -/
def mergeGuestCartF (fails : Nat → Bool) (sid : String) (uid : Nat)
    (s : Store) : Store :=
  if fails 0 then s
  else
    let guestItems := guestFilter sid s
    if guestItems.isEmpty then s
    else (mergeLoopF fails uid guestItems 1 s).1

/-- The guest-cart step of `login` (auth controller): when the session held a
guest session id, `mergeGuestCart` is awaited; whatever the merge did, login
continues and responds 200, so the boolean success component is `true` for
every outcome of the merge. -/
def loginCartMerge (fails : Nat → Bool) (guestSessionId : Option String)
    (uid : Nat) (s : Store) : Store × Bool :=
  match guestSessionId with
  | some g => (mergeGuestCartF fails g uid s, true)
  | none => (s, true)

/-- The invariant carried through `mergeGuestCart`'s loop: cart ids are
unique, `gs` is exactly the current set of lines carrying the guest session
key, session-keyed lines carry no user key, the guest snapshot holds at most
one line per product, and the user's lines hold at most one line per
product. -/
structure MergeInv (sid : String) (uid : Nat) (gs : List CartLine)
    (s : Store) : Prop where
  nodup : (s.cart_items.map (fun l => l.cart_id)).Nodup
  guest : guestFilter sid s = gs
  sess_no_user : ∀ l ∈ s.cart_items, l.session_id = some sid → l.user_id = none
  gprod : (gs.map (fun l => l.product_id)).Nodup
  uprod : ∀ l₁ ∈ s.cart_items, ∀ l₂ ∈ s.cart_items,
    l₁.user_id = some uid → l₂.user_id = some uid → l₁ ≠ l₂ →
    l₁.product_id ≠ l₂.product_id

instance exceptDecEq {ε α : Type} [DecidableEq ε] [DecidableEq α] :
    DecidableEq (Except ε α) := fun x y =>
  match x, y with
  | .ok a, .ok b =>
    if h : a = b then .isTrue (by rw [h])
    else .isFalse (fun hh => h (by injection hh))
  | .error e, .error f =>
    if h : e = f then .isTrue (by rw [h])
    else .isFalse (fun hh => h (by injection hh))
  | .ok _, .error _ => .isFalse (fun hh => Except.noConfusion hh)
  | .error _, .ok _ => .isFalse (fun hh => Except.noConfusion hh)

/-- A store holding one cart line owned by user 2, used to instantiate
foreign-owner access checks. -/
def storeC6 : Store :=
  ⟨[⟨1, "Widget", 10, 0, 5, true⟩], [⟨1, some 2, none, 1, 1⟩], [], [], 2, 1⟩

/-- A store with a single active product with stock 5 and an empty cart. -/
def storeC9 : Store :=
  ⟨[⟨1, "Widget", 10, 0, 5, true⟩], [], [], [], 1, 1⟩

/-- A store with one active product and an empty cart, for the dual-key
insertion scenario. -/
def storeC8 : Store :=
  ⟨[⟨1, "Widget", 10, 0, 5, true⟩], [], [], [], 1, 1⟩

/-- No cart line carries both owner keys. -/
def NoDualKey (s : Store) : Prop :=
  ∀ l ∈ s.cart_items, l.user_id = none ∨ l.session_id = none

/-- A store whose only product has stock 1 while the user's cart asks for
2 of it. -/
def storeC2 : Store :=
  ⟨[⟨1, "Widget", 10, 0, 1, true⟩], [⟨1, some 5, none, 1, 2⟩], [], [], 2, 1⟩

/-- A store with one product (stock 5) and a user cart line for 2 of it. -/
def storeC1 : Store :=
  ⟨[⟨1, "Widget", 10, 0, 5, true⟩], [⟨1, some 5, none, 1, 2⟩], [], [], 2, 1⟩

/-- `createOrder` on `storeC1` with a store whose second write (the first
`order_items` INSERT) fails. -/
def c1Run : Store × Except OrderError OrderResult :=
  createOrder (fun k => k == 1) (some 5) none
    (some "addr") (some "e") (some "n") storeC1

/-- A store whose only cart line points at an inactive product. -/
def storeC10 : Store :=
  ⟨[⟨1, "X", 10, 0, 5, false⟩], [⟨1, none, some "g", 1, 2⟩], [], [], 2, 1⟩

/-- A store like `storeC10` but with the product active and a user-owned
line of quantity 3. -/
def storeC10b : Store :=
  ⟨[⟨1, "X", 10, 0, 5, true⟩], [⟨1, some 4, none, 1, 3⟩], [], [], 2, 1⟩

/-- A rational that is a whole number of cents. -/
def Cent (x : ℚ) : Prop := ∃ n : ℤ, x * 100 = n

/-- A store with fractional discounted prices: two products at 0.99 with a
50% discount, one unit of each in user 1's cart.  Each line's discounted
subtotal is 0.495, which the SQL rounds to 0.50 per line. -/
def storeC7 : Store :=
  ⟨[⟨1, "A", 99/100, 50, 10, true⟩, ⟨2, "B", 99/100, 50, 10, true⟩],
   [⟨1, some 1, none, 1, 1⟩, ⟨2, some 1, none, 2, 1⟩], [], [], 3, 1⟩

/-- A store on which every line value is a whole number of cents. -/
def storeC7W : Store :=
  ⟨[⟨1, "A", 10, 0, 5, true⟩], [⟨1, some 1, none, 1, 2⟩], [], [], 2, 1⟩

/-- A sequence of `addToCart` calls for one owner and product, each of which
must succeed for the sequence to produce a store. -/
def addSeq (uid : Option Nat) (sid : Option String) (pid : Nat) :
    List (Option ℚ) → Store → Option Store
  | [], s => some s
  | q :: qs, s =>
    match addToCart uid sid (some pid) q s with
    | (s', .ok _) => addSeq uid sid pid qs s'
    | (_, .error _) => none

/-- A store with one active product with stock 10 and an empty cart. -/
def storeC3 : Store :=
  ⟨[⟨1, "W", 10, 0, 10, true⟩], [], [], [], 1, 1⟩

/-- The row transformation of `bumpQty`, named for reasoning. -/
def bumpFun (cid : Nat) (dq : Int) : CartLine → CartLine := fun l =>
  if l.cart_id == cid then { l with quantity := l.quantity + dq } else l

/-- The row transformation of `repoint`, named for reasoning. -/
def repointFun (cid : Nat) (uid : Nat) : CartLine → CartLine := fun l =>
  if l.cart_id == cid then { l with user_id := some uid, session_id := none }
  else l

/-- The spec example: guest session "g" holds 2 units of product 1 and 1
unit of product 2; user 9 already has 1 unit of product 1. -/
def storeC4 : Store :=
  ⟨[⟨1, "A", 10, 0, 20, true⟩, ⟨2, "B", 10, 0, 20, true⟩],
   [⟨1, some 9, none, 1, 1⟩, ⟨2, none, some "g", 1, 2⟩,
    ⟨3, none, some "g", 2, 1⟩], [], [], 4, 1⟩

/-- Guest session "g" holds lines for products 1 and 2; user 5 already has
product 1. -/
def storeC5 : Store :=
  ⟨[⟨1, "A", 10, 0, 20, true⟩, ⟨2, "B", 10, 0, 20, true⟩],
   [⟨1, some 5, none, 1, 1⟩, ⟨2, none, some "g", 1, 2⟩,
    ⟨3, none, some "g", 2, 1⟩], [], [], 4, 1⟩

/-! ## Theorems -/

/-! ## Order engine -/

/-! ## Guest-cart merge (auth controller) -/

/-! ## List-level facts about the row operations -/

theorem find?_eq_head?_filter {α : Type} (p : α → Bool) (l : List α) :
    l.find? p = (l.filter p).head? := by
  induction l with
  | nil => rfl
  | cons a t ih =>
    by_cases h : p a
    · rw [List.find?_cons_of_pos _ h, List.filter_cons, if_pos h]
      rfl
    · rw [List.find?_cons_of_neg _ h, List.filter_cons, if_neg h]
      exact ih

theorem filter_map_comm {α : Type} (f : α → α) (p : α → Bool) (l : List α)
    (h : ∀ x ∈ l, p (f x) = p x) : (l.map f).filter p = (l.filter p).map f := by
  induction l with
  | nil => rfl
  | cons a t ih =>
    have ha := h a (by simp)
    have ht := ih (fun x hx => h x (by simp [hx]))
    by_cases hp : p a <;>
      simp [List.filter_cons, hp, ha, ht]

theorem find?_map_comm {α : Type} (f : α → α) (p : α → Bool) (l : List α)
    (h : ∀ x ∈ l, p (f x) = p x) : (l.map f).find? p = (l.find? p).map f := by
  induction l with
  | nil => rfl
  | cons a t ih =>
    have ha := h a (by simp)
    have ht := ih (fun x hx => h x (by simp [hx]))
    by_cases hp : p a
    · rw [List.map_cons, List.find?_cons_of_pos _ (by rw [ha]; exact hp),
        List.find?_cons_of_pos _ hp]
      rfl
    · rw [List.map_cons, List.find?_cons_of_neg _ (by rw [ha]; exact hp),
        List.find?_cons_of_neg _ hp]
      exact ht

theorem find?_filter_comm {α : Type} (p q : α → Bool) (l : List α)
    (h : ∀ x ∈ l, q x = false → p x = false) :
    (l.filter q).find? p = l.find? p := by
  induction l with
  | nil => rfl
  | cons a t ih =>
    have ht := ih (fun x hx => h x (by simp [hx]))
    by_cases hq : q a
    · by_cases hp : p a
      · rw [List.filter_cons, if_pos hq, List.find?_cons_of_pos _ hp,
          List.find?_cons_of_pos _ hp]
      · rw [List.filter_cons, if_pos hq, List.find?_cons_of_neg _ hp,
          List.find?_cons_of_neg _ hp]
        exact ht
    · have hpa : p a = false := h a (by simp) (by simpa using hq)
      rw [List.filter_cons, if_neg hq, List.find?_cons_of_neg _ (by simp [hpa])]
      exact ht

theorem map_eq_self_of {α : Type} (f : α → α) (l : List α)
    (h : ∀ x ∈ l, f x = x) : l.map f = l := by
  induction l with
  | nil => rfl
  | cons a t ih =>
    simp [h a (by simp), ih (fun x hx => h x (by simp [hx]))]

theorem id_inj_of_nodup {s : List CartLine}
    (hn : (s.map (fun x => x.cart_id)).Nodup) {x y : CartLine}
    (hx : x ∈ s) (hy : y ∈ s) (hid : x.cart_id = y.cart_id) : x = y :=
  List.inj_on_of_nodup_map hn hx hy hid

theorem ids_map_modify (f : CartLine → CartLine)
    (hf : ∀ x, (f x).cart_id = x.cart_id) (l : List CartLine) :
    (l.map f).map (fun x => x.cart_id) = l.map (fun x => x.cart_id) := by
  rw [List.map_map]
  exact List.map_congr_left (fun x _ => hf x)

theorem filter_deleteId {l : List CartLine} {p : CartLine → Bool}
    {g : CartLine} {rest : List CartLine}
    (hn : (l.map (fun x => x.cart_id)).Nodup)
    (hf : l.filter p = g :: rest) :
    (l.filter (fun x => ! (x.cart_id == g.cart_id))).filter p = rest := by
  induction l with
  | nil => simp at hf
  | cons a t ih =>
    rw [List.map_cons, List.nodup_cons] at hn
    obtain ⟨hna, hnt⟩ := hn
    by_cases hpa : p a
    · rw [List.filter_cons, if_pos hpa] at hf
      obtain ⟨hag, hrest⟩ : a = g ∧ t.filter p = rest := by
        constructor
        · exact (List.cons.injEq .. ▸ hf).1
        · exact (List.cons.injEq .. ▸ hf).2
      subst hag
      rw [List.filter_cons]
      rw [if_neg (by simp)]
      have htkeep : t.filter (fun x => ! (x.cart_id == a.cart_id)) = t := by
        rw [List.filter_eq_self]
        intro x hx
        simp only [Bool.not_eq_true', beq_eq_false_iff_ne, ne_eq]
        intro hxe
        exact hna (by rw [← hxe]; exact List.mem_map_of_mem _ hx)
      rw [htkeep, hrest]
    · rw [List.filter_cons, if_neg hpa] at hf
      by_cases hag : a.cart_id = g.cart_id
      · exfalso
        have hg_t : g ∈ t := by
          have : g ∈ t.filter p := by rw [hf]; exact List.mem_cons_self _ _
          exact List.mem_of_mem_filter this
        exact hna (by rw [hag]; exact List.mem_map_of_mem _ hg_t)
      · rw [List.filter_cons, if_pos (by simp [hag]), List.filter_cons,
          if_neg hpa]
        exact ih hnt hf

theorem filter_modifyId {l : List CartLine} {p : CartLine → Bool}
    {g : CartLine} {rest : List CartLine} (f : CartLine → CartLine)
    (hn : (l.map (fun x => x.cart_id)).Nodup)
    (hf : l.filter p = g :: rest)
    (hfid : ∀ x : CartLine, ¬ x.cart_id = g.cart_id → f x = x)
    (hfg : p (f g) = false) :
    (l.map f).filter p = rest := by
  induction l with
  | nil => simp at hf
  | cons a t ih =>
    rw [List.map_cons, List.nodup_cons] at hn
    obtain ⟨hna, hnt⟩ := hn
    by_cases hpa : p a
    · rw [List.filter_cons, if_pos hpa] at hf
      obtain ⟨hag, hrest⟩ : a = g ∧ t.filter p = rest := by
        constructor
        · exact (List.cons.injEq .. ▸ hf).1
        · exact (List.cons.injEq .. ▸ hf).2
      subst hag
      rw [List.map_cons, List.filter_cons, if_neg (by simp [hfg])]
      have htkeep : t.map f = t := by
        apply map_eq_self_of
        intro x hx
        refine hfid x ?_
        intro hxe
        exact hna (by rw [← hxe]; exact List.mem_map_of_mem _ hx)
      rw [htkeep, hrest]
    · rw [List.filter_cons, if_neg hpa] at hf
      by_cases hag : a.cart_id = g.cart_id
      · exfalso
        have hg_t : g ∈ t := by
          have : g ∈ t.filter p := by rw [hf]; exact List.mem_cons_self _ _
          exact List.mem_of_mem_filter this
        exact hna (by rw [hag]; exact List.mem_map_of_mem _ hg_t)
      · rw [List.map_cons, hfid a hag, List.filter_cons, if_neg hpa]
        exact ih hnt hf

/-! ## Claim C6 -/

/-- Claim C6: for every cart_id that does not belong to the calling owner
(it belongs to another user, another guest session, or does not exist),
`updateCartItem` (for any quantity passing its validation gate) and
`removeCartItem` fail with a cart-item-not-found error and perform no
mutation: the store is returned unchanged. -/
theorem updateRemove_foreign_cart_not_found
    (uid : Option Nat) (sid : Option String) (cid : Nat) (s : Store)
    (hown : ∀ l ∈ s.cart_items, ownItemPred uid sid cid l = false) :
    (∀ q : ℚ, 1 ≤ q →
      updateCartItem uid sid cid (some q) s = (s, .error .cartItemNotFound)) ∧
    removeCartItem uid sid cid s = (s, .error .cartItemNotFound) := by
  have hfind : s.cart_items.find? (ownItemPred uid sid cid) = none :=
    List.find?_eq_none.mpr (by intro x hx; simp [hown x hx])
  constructor
  · intro q hq
    have hlt : ¬ q < 1 := not_lt.mpr hq
    simp [updateCartItem, hlt, hfind]
  · simp [removeCartItem, hfind]

theorem updateRemove_foreign_cart_not_found_witness :
    (∀ l ∈ storeC6.cart_items, ownItemPred (some 3) none 1 l = false) ∧
    updateCartItem (some 3) none 1 (some 1) storeC6 =
      (storeC6, .error .cartItemNotFound) ∧
    removeCartItem (some 3) none 1 storeC6 =
      (storeC6, .error .cartItemNotFound) := by
  have h := updateRemove_foreign_cart_not_found (some 3) none 1 storeC6 (by decide)
  exact ⟨by decide, h.1 1 (by norm_num), h.2⟩

/-! ## Claim C9 -/

/-- Claim C9 counterexample: `addToCart` with quantity `0` does not fail
with an invalid-quantity error — `parseInt(quantity) || 1` turns the falsy
`0` into the default `1`, and the call succeeds, inserting a line with
quantity `1`. -/
theorem addToCart_zero_quantity_succeeds :
    (addToCart none (some "g") (some 1) (some 0) storeC9).2 =
      .ok ⟨1, 1, 1, .added⟩ ∧
    (addToCart none (some "g") (some 1) (some 0) storeC9).1.cart_items =
      [⟨1, none, some "g", 1, 1⟩] := by
  constructor <;> decide

/-- Claim C9 amended: `addToCart` coerces the quantity with `parseInt` and
defaults every falsy result to `1` — so an absent quantity and a quantity of
`0` are both treated as `1` — and only an input coercing to an integer at
most `-1` fails with the invalid-quantity error, leaving the store
unchanged. -/
theorem addToCart_quantity_amended :
    (∀ (uid : Option Nat) (sid : Option String) (pid : Nat) (x : ℚ) (s : Store),
      pid ≠ 0 → x ≤ -1 →
      addToCart uid sid (some pid) (some x) s = (s, .error .invalidQuantity)) ∧
    coerceQty none = 1 ∧ coerceQty (some 0) = 1 := by
  refine ⟨?_, rfl, by decide⟩
  intro uid sid pid x s hpid hx
  have hx0 : x < 0 := lt_of_le_of_lt hx (by norm_num)
  have hceil : (⌈x⌉ : ℤ) ≤ -1 := by
    rw [Int.ceil_le]
    exact_mod_cast hx
  have htr : jsTrunc x = ⌈x⌉ := if_pos hx0
  have hne : ¬ jsTrunc x = 0 := by omega
  have hco : coerceQty (some x) = ⌈x⌉ := by
    show (if jsTrunc x = 0 then 1 else jsTrunc x) = ⌈x⌉
    rw [if_neg hne, htr]
  have hlt : coerceQty (some x) < 1 := by omega
  simp only [addToCart]
  rw [if_neg hpid, if_pos hlt]

theorem addToCart_quantity_amended_witness :
    addToCart none (some "g") (some 1) (some (-2)) storeC9 =
      (storeC9, .error .invalidQuantity) :=
  addToCart_quantity_amended.1 none (some "g") 1 (-2) storeC9
    (by decide) (by norm_num)

/-! ## Claim C8 -/

/-- Claim C8 counterexample: a single successful `addToCart` by a logged-in
user whose request also carries a session id (the session always has an id,
so `getSessionId` is non-null for logged-in users too) inserts a cart line
whose `user_id` and `session_id` are both non-null — a state reachable
through `addToCart` in which a line carries both owner keys. -/
theorem addToCart_dual_owner_keys :
    (addToCart (some 7) (some "sess") (some 1) none storeC8).1.cart_items =
      [⟨1, some 7, some "sess", 1, 1⟩] ∧
    (addToCart (some 7) (some "sess") (some 1) none storeC8).2 =
      .ok ⟨1, 1, 1, .added⟩ := by
  constructor <;> decide

/-- Claim C8 amended: the single-owner-key invariant holds for every state
reachable through `mergeGuestCart` unconditionally and through `addToCart`
whenever the call carries at most one identity key; an `addToCart` carrying
both a user id and a session id inserts a dual-key line (see the
counterexample). -/
theorem single_owner_key_amended (s : Store) (hs : NoDualKey s) :
    (∀ (sid : String) (uid : Nat), NoDualKey (mergeGuestCart sid uid s)) ∧
    (∀ (uid : Option Nat) (sid : Option String) (pid? : Option Nat)
       (q : Option ℚ), uid = none ∨ sid = none →
       NoDualKey (addToCart uid sid pid? q s).1) := by
  constructor
  · intro sid uid
    have hloop : ∀ (gs : List CartLine) (c : Store), NoDualKey c →
        NoDualKey (mergeLoop uid gs c) := by
      intro gs
      induction gs with
      | nil => intro c hc; exact hc
      | cons g t ih =>
        intro c hc
        simp only [mergeLoop]
        cases hfind : c.cart_items.find? (userLinePred uid g.product_id) with
        | some ex =>
          apply ih
          intro l hl
          simp only [deleteLine, bumpQty, List.mem_filter] at hl
          obtain ⟨hl, -⟩ := hl
          obtain ⟨x, hx, rfl⟩ := List.mem_map.mp hl
          by_cases hid : (x.cart_id == ex.cart_id) = true <;>
            simp [hid] <;> exact hc x hx
        | none =>
          apply ih
          intro l hl
          simp only [repoint] at hl
          obtain ⟨x, hx, rfl⟩ := List.mem_map.mp hl
          by_cases hid : (x.cart_id == g.cart_id) = true <;> simp [hid]
          exact hc x hx
    unfold mergeGuestCart
    by_cases hge : (guestFilter sid s).isEmpty <;> simp [hge]
    · exact hs
    · exact hloop _ s hs
  · intro uid sid pid? q hxor
    have hmap : ∀ (cid : Nat) (nq : Int),
        NoDualKey ({ s with cart_items := s.cart_items.map (fun l =>
          if l.cart_id == cid then { l with quantity := nq } else l) }) := by
      intro cid nq l hl
      simp only [List.mem_map] at hl
      obtain ⟨x, hx, rfl⟩ := hl
      rcases hs x hx with h | h
      · exact Or.inl (by split <;> exact h)
      · exact Or.inr (by split <;> exact h)
    have happ : ∀ (pid : Nat) (qv : Int),
        NoDualKey ({ s with
          cart_items := s.cart_items ++ [⟨s.next_cart_id, uid, sid, pid, qv⟩],
          next_cart_id := s.next_cart_id + 1 }) := by
      intro pid qv l hl
      simp only [List.mem_append, List.mem_singleton] at hl
      rcases hl with hl | rfl
      · exact hs l hl
      · rcases hxor with rfl | rfl
        · exact Or.inl rfl
        · exact Or.inr rfl
    simp only [addToCart]
    rcases pid? with - | pid
    · exact hs
    · repeat' split
      all_goals first
        | exact hs
        | exact hmap _ _
        | exact happ _ _

/-! ## Claim C2 -/

/-- Claim C2: for every owner and cart state in which some cart line's
quantity exceeds its product's current stock (witnessed by the first such
line found by the validation loop), `createOrder` fails with an
insufficient-stock error naming the offending product, and — whatever the
write-failure oracle would have done — performs no write at all: the store
is returned unchanged, so zero Order and zero OrderLine rows are created and
stock and cart lines are untouched. -/
theorem createOrder_insufficient_stock_no_writes
    (fails : Nat → Bool) (uid : Option Nat) (sid : Option String)
    (addr email name : Option String) (s : Store) (lp : CartLine × Product)
    (ha : addr ≠ none) (he : email ≠ none) (hn : name ≠ none)
    (hfind : (orderCartJoin uid sid s).find?
        (fun x => x.1.quantity > x.2.stock_quantity) = some lp) :
    createOrder fails uid sid addr email name s =
      (s, .error (.insufficientStockFor lp.2.product_name)) := by
  have hmem := List.mem_of_find?_eq_some hfind
  have hne : ¬ (orderCartJoin uid sid s).isEmpty = true := by
    intro hemp
    rw [List.isEmpty_iff] at hemp
    simp [hemp] at hmem
  have hcond : ¬ (addr = none ∨ email = none ∨ name = none) := by
    push_neg
    exact ⟨ha, he, hn⟩
  simp [createOrder, hcond, hne, hfind]

theorem createOrder_insufficient_stock_no_writes_witness :
    (orderCartJoin (some 5) none storeC2).find?
        (fun x => x.1.quantity > x.2.stock_quantity) =
      some (⟨1, some 5, none, 1, 2⟩, ⟨1, "Widget", 10, 0, 1, true⟩) ∧
    createOrder (fun _ => false) (some 5) none
        (some "a") (some "e") (some "n") storeC2 =
      (storeC2, .error (.insufficientStockFor "Widget")) := by
  have h := createOrder_insufficient_stock_no_writes (fun _ => false)
    (some 5) none (some "a") (some "e") (some "n") storeC2
    (⟨1, some 5, none, 1, 2⟩, ⟨1, "Widget", 10, 0, 1, true⟩)
    (by decide) (by decide) (by decide) (by decide)
  exact ⟨by decide, h⟩

/-! ## Claim C1 -/

/-- Claim C1 (refuting evidence): there is no transaction around
`createOrder`'s writes — when the `order_items` INSERT fails right after the
order row was inserted, the catch block reports a generic failure but the
already-committed order row stays: the final store holds one order row with
zero order lines, precisely the half-completed state the claim says is
unreachable (the cart and stock are also left as they were, decremented for
nothing only in later-failure variants). -/
theorem createOrder_partial_write_persists :
    c1Run.2 = .error .storeFailure ∧
    (c1Run.1.orders.map (fun o => o.order_id)) = [1] ∧
    c1Run.1.order_items = [] ∧
    c1Run.1.cart_items = storeC1.cart_items ∧
    c1Run.1.products = storeC1.products := by
  refine ⟨?_, ?_, ?_, ?_, ?_⟩ <;> decide

theorem single_owner_key_amended_witness :
    NoDualKey storeC8 ∧
    NoDualKey (mergeGuestCart "g" 7 storeC8) ∧
    NoDualKey (addToCart none (some "g") (some 1) none storeC8).1 := by
  have h0 : NoDualKey storeC8 := by intro l hl; simp [storeC8] at hl
  exact ⟨h0, (single_owner_key_amended storeC8 h0).1 "g" 7,
    (single_owner_key_amended storeC8 h0).2 none (some "g") (some 1) none
      (Or.inl rfl)⟩

/-! ## Claim C10 -/

theorem getCartItems_quantity_sum (s : Store) (L : List CartLine)
    (h : ∀ l ∈ L, ∃ p,
      s.products.find? (fun p' => p'.product_id == l.product_id) = some p ∧
      p.is_active = true) :
    ((L.filterMap (fun l =>
      match s.products.find? (fun p => p.product_id == l.product_id) with
      | some p => if p.is_active then some (toCartItemRow l p) else none
      | none => none)).map (fun i => i.quantity)).sum
    = (L.map (fun l => l.quantity)).sum := by
  induction L with
  | nil => rfl
  | cons a t ih =>
    obtain ⟨p, hp, hact⟩ := h a (by simp)
    rw [List.filterMap_cons, hp]
    simp only [hact, if_true, List.map_cons, List.sum_cons]
    rw [ih (fun x hx => h x (by simp [hx]))]
    rfl

/-- Claim C10: `getCartCount` sums quantities without consulting product
state while `getCart` omits lines of inactive products; the two agree
whenever every line's product resolves to an active product, and on a cart
holding 2 units of an inactive product the count is 2 while the summary's
total_items is 0 — strictly larger. -/
theorem getCartCount_vs_getCart_total_items :
    (∀ (uid : Option Nat) (sid : Option String) (s : Store),
      (∀ l ∈ countLines uid sid s, ∃ p,
        s.products.find? (fun p' => p'.product_id == l.product_id) = some p ∧
        p.is_active = true) →
      getCartCount uid sid s = (getCartSummary uid sid s).total_items) ∧
    (getCartCount none (some "g") storeC10 = 2 ∧
     (getCartSummary none (some "g") storeC10).total_items = 0) := by
  constructor
  · intro uid sid s h
    by_cases hid : uid = none ∧ sid = none
    · obtain ⟨h1, h2⟩ := hid
      subst h1; subst h2
      show ((countLines none none s).map _).sum = _
      rw [show getCartSummary none none s = ⟨0, 0, 0, 0⟩ from if_pos ⟨rfl, rfl⟩]
      simp [countLines]
    · have hsum : (getCartSummary uid sid s).total_items =
          ((getCartItems uid sid s).map (fun i => i.quantity)).sum := by
        unfold getCartSummary
        rw [if_neg hid]
      rw [hsum]
      exact (getCartItems_quantity_sum s _ h).symm
  · exact ⟨by decide, by decide⟩

theorem getCartCount_vs_getCart_total_items_witness :
    getCartCount (some 4) none storeC10b =
      (getCartSummary (some 4) none storeC10b).total_items := by
  refine getCartCount_vs_getCart_total_items.1 (some 4) none storeC10b ?_
  intro l hl
  have hl' : l = ⟨1, some 4, none, 1, 3⟩ := by
    simpa [countLines, storeC10b] using hl
  subst hl'
  exact ⟨⟨1, "X", 10, 0, 5, true⟩, by decide, rfl⟩

/-! ## Claim C7 -/

theorem round2_eq (x : ℚ) (n : ℤ) (h1 : (n : ℚ) ≤ x * 100 + 1 / 2)
    (h2 : x * 100 + 1 / 2 < (n : ℚ) + 1) : round2 x = (n : ℚ) / 100 := by
  unfold round2
  rw [show (⌊x * 100 + 1 / 2⌋ : ℤ) = n from Int.floor_eq_iff.mpr ⟨h1, h2⟩]

theorem round2_cent {x : ℚ} (h : Cent x) : round2 x = x := by
  obtain ⟨n, hn⟩ := h
  have h1 : (n : ℚ) ≤ x * 100 + 1 / 2 := by rw [← hn]; linarith
  have h2 : x * 100 + 1 / 2 < (n : ℚ) + 1 := by rw [← hn]; linarith
  rw [round2_eq x n h1 h2, div_eq_iff (by norm_num : (100 : ℚ) ≠ 0)]
  linarith [hn]

theorem mem_getCartItems_cols {uid : Option Nat} {sid : Option String}
    {s : Store} {i : CartItemRow} (hi : i ∈ getCartItems uid sid s) :
    i.subtotal = round2 (i.price * (i.quantity : ℚ)) ∧
    i.discounted_subtotal =
      round2 ((i.price - i.price * i.discount_percentage / 100) *
        (i.quantity : ℚ)) := by
  unfold getCartItems at hi
  obtain ⟨l, hl, hf⟩ := List.mem_filterMap.mp hi
  cases hp : s.products.find? (fun p => p.product_id == l.product_id) with
  | none => rw [hp] at hf; exact absurd hf (by simp)
  | some p =>
    rw [hp] at hf
    have hf' : (if p.is_active = true then some (toCartItemRow l p) else none) =
        some i := hf
    by_cases hact : p.is_active
    · rw [if_pos hact] at hf'
      have hip : i = toCartItemRow l p := by injection hf' with h; exact h.symm
      subst hip
      exact ⟨rfl, rfl⟩
    · rw [if_neg hact] at hf'
      exact absurd hf' (by simp)

/-- Claim C7 amended: the line-level columns are themselves rounded to two
decimals in the SQL projection, and each monetary summary field is the
half-up-rounded sum of those already-rounded per-line values (rounded twice
overall); this agrees with the spec's once-rounded full-precision sum
exactly when every line's raw subtotal and raw discounted subtotal are
whole numbers of cents. -/
theorem getCart_summary_rounding_amended (uid : Option Nat)
    (sid : Option String) (s : Store)
    (h : ∀ i ∈ getCartItems uid sid s,
      Cent (i.price * (i.quantity : ℚ)) ∧
      Cent ((i.price - i.price * i.discount_percentage / 100) *
        (i.quantity : ℚ))) :
    getCartSummary uid sid s = getCartSummarySpec uid sid s := by
  unfold getCartSummary getCartSummarySpec
  by_cases hid : uid = none ∧ sid = none
  · rw [if_pos hid, if_pos hid]
  · rw [if_neg hid, if_neg hid]
    have hsub : (getCartItems uid sid s).map (fun i => i.subtotal) =
        (getCartItems uid sid s).map (fun i => i.price * (i.quantity : ℚ)) := by
      apply List.map_congr_left
      intro i hi
      rw [(mem_getCartItems_cols hi).1, round2_cent (h i hi).1]
    have hdisc : (getCartItems uid sid s).map (fun i => i.discounted_subtotal) =
        (getCartItems uid sid s).map (fun i =>
          (i.price - i.price * i.discount_percentage / 100) * (i.quantity : ℚ)) := by
      apply List.map_congr_left
      intro i hi
      rw [(mem_getCartItems_cols hi).2, round2_cent (h i hi).2]
    have hboth : (getCartItems uid sid s).map
          (fun i => i.subtotal - i.discounted_subtotal) =
        (getCartItems uid sid s).map (fun i =>
          i.price * (i.quantity : ℚ) -
            (i.price - i.price * i.discount_percentage / 100) * (i.quantity : ℚ)) := by
      apply List.map_congr_left
      intro i hi
      rw [(mem_getCartItems_cols hi).1, (mem_getCartItems_cols hi).2,
        round2_cent (h i hi).1, round2_cent (h i hi).2]
    simp only [hsub, hboth, hdisc]

/-- Claim C7 counterexample: on `storeC7` the code's `total_amount` is
1.00 — the sum of the per-line SQL-rounded values 0.50 + 0.50, rounded
again — while the full-precision sum 0.495 + 0.495 = 0.99 rounded exactly
once is 0.99; so the summary is not the full-precision sum rounded once. -/
theorem getCart_summary_double_rounding :
    (getCartSummary (some 1) none storeC7).total_amount = 1 ∧
    (getCartSummarySpec (some 1) none storeC7).total_amount = 99/100 ∧
    (1 : ℚ) ≠ 99/100 := by
  have hitems : getCartItems (some 1) none storeC7 =
      [toCartItemRow ⟨1, some 1, none, 1, 1⟩ ⟨1, "A", 99/100, 50, 10, true⟩,
       toCartItemRow ⟨2, some 1, none, 2, 1⟩ ⟨2, "B", 99/100, 50, 10, true⟩] := rfl
  have hcolA : (toCartItemRow ⟨1, some 1, none, 1, 1⟩
      ⟨1, "A", 99/100, 50, 10, true⟩).discounted_subtotal = 50/100 := by
    show round2 ((99/100 - 99/100 * 50 / 100) * ((1 : Int) : ℚ)) = 50/100
    rw [round2_eq _ 50 (by push_cast; norm_num) (by push_cast; norm_num)]
    norm_num
  have hcolB : (toCartItemRow ⟨2, some 1, none, 2, 1⟩
      ⟨2, "B", 99/100, 50, 10, true⟩).discounted_subtotal = 50/100 := by
    show round2 ((99/100 - 99/100 * 50 / 100) * ((1 : Int) : ℚ)) = 50/100
    rw [round2_eq _ 50 (by push_cast; norm_num) (by push_cast; norm_num)]
    norm_num
  refine ⟨?_, ?_, by norm_num⟩
  · have hta : (getCartSummary (some 1) none storeC7).total_amount =
        round2 (((getCartItems (some 1) none storeC7).map
          (fun i => i.discounted_subtotal)).sum) := by
      unfold getCartSummary
      rw [if_neg (by simp)]
    rw [hta, hitems]
    simp only [List.map_cons, List.map_nil, List.sum_cons, List.sum_nil]
    rw [hcolA, hcolB]
    rw [round2_eq _ 100 (by norm_num) (by norm_num)]
    norm_num
  · have hta : (getCartSummarySpec (some 1) none storeC7).total_amount =
        round2 (((getCartItems (some 1) none storeC7).map (fun i =>
          (i.price - i.price * i.discount_percentage / 100) *
            (i.quantity : ℚ))).sum) := by
      unfold getCartSummarySpec
      rw [if_neg (by simp)]
    rw [hta, hitems]
    simp only [List.map_cons, List.map_nil, List.sum_cons, List.sum_nil,
      toCartItemRow]
    rw [round2_eq _ 99 (by push_cast; norm_num) (by push_cast; norm_num)]
    norm_num

theorem getCart_summary_rounding_amended_witness :
    getCartSummary (some 1) none storeC7W =
      getCartSummarySpec (some 1) none storeC7W := by
  refine getCart_summary_rounding_amended (some 1) none storeC7W ?_
  intro i hi
  have hitems : getCartItems (some 1) none storeC7W =
      [toCartItemRow ⟨1, some 1, none, 1, 2⟩ ⟨1, "A", 10, 0, 5, true⟩] := rfl
  rw [hitems] at hi
  have hi' : i = toCartItemRow ⟨1, some 1, none, 1, 2⟩ ⟨1, "A", 10, 0, 5, true⟩ := by
    simpa using hi
  subst hi'
  constructor
  · exact ⟨2000, by push_cast [toCartItemRow]; norm_num⟩
  · exact ⟨2000, by push_cast [toCartItemRow]; norm_num⟩

/-! ## Claim C3 -/

theorem ownPred_quantity_invariant (uid : Option Nat) (sid : Option String)
    (pid : Nat) (l : CartLine) (nq : Int) :
    ownPred uid sid pid { l with quantity := nq } = ownPred uid sid pid l := by
  cases uid <;> cases sid <;> simp [ownPred]

theorem ownPred_self (uid : Option Nat) (sid : Option String) (pid : Nat)
    (cid : Nat) (qv : Int) (hident : uid.isSome ∨ sid.isSome) :
    ownPred uid sid pid ⟨cid, uid, sid, pid, qv⟩ = true := by
  cases uid with
  | some u => simp [ownPred]
  | none =>
    cases sid with
    | some sv => simp [ownPred]
    | none => simp at hident

theorem addToCart_insert_case (uid : Option Nat) (sid : Option String)
    (pid : Nat) (q : Option ℚ) (s s' : Store) (r : AddResult)
    (hident : uid.isSome ∨ sid.isSome)
    (hempty : ownerPidLines uid sid pid s = [])
    (hsucc : addToCart uid sid (some pid) q s = (s', .ok r)) :
    ownerPidLines uid sid pid s' =
      [⟨s.next_cart_id, uid, sid, pid, coerceQty q⟩] ∧
    r = ⟨s.next_cart_id, pid, coerceQty q, .added⟩ := by
  have hfind : s.cart_items.find? (ownPred uid sid pid) = none := by
    rw [find?_eq_head?_filter]
    show (ownerPidLines uid sid pid s).head? = none
    rw [hempty]
    rfl
  simp only [addToCart, hfind] at hsucc
  split at hsucc
  · exact absurd hsucc (by simp)
  split at hsucc
  · exact absurd hsucc (by simp)
  split at hsucc
  · exact absurd hsucc (by simp)
  · split at hsucc
    · exact absurd hsucc (by simp)
    · split at hsucc
      · exact absurd hsucc (by simp)
      · rw [Prod.mk.injEq] at hsucc
        obtain ⟨hs', hr⟩ := hsucc
        have hrr : r = ⟨s.next_cart_id, pid, coerceQty q, .added⟩ :=
          (Except.ok.inj hr).symm
        refine ⟨?_, hrr⟩
        rw [← hs']
        show ((s.cart_items ++
            [(⟨s.next_cart_id, uid, sid, pid, coerceQty q⟩ : CartLine)]).filter
          (ownPred uid sid pid)) = _
        rw [List.filter_append]
        have h1 : s.cart_items.filter (ownPred uid sid pid) = [] := hempty
        rw [h1, List.nil_append, List.filter_cons,
          if_pos (ownPred_self uid sid pid s.next_cart_id (coerceQty q) hident)]
        rfl

theorem addToCart_update_case (uid : Option Nat) (sid : Option String)
    (pid : Nat) (q : Option ℚ) (s s' : Store) (r : AddResult) (l : CartLine)
    (hone : ownerPidLines uid sid pid s = [l])
    (hsucc : addToCart uid sid (some pid) q s = (s', .ok r)) :
    ownerPidLines uid sid pid s' =
      [{ l with quantity := l.quantity + coerceQty q }] ∧
    r = ⟨l.cart_id, pid, l.quantity + coerceQty q, .updated⟩ := by
  have hfind : s.cart_items.find? (ownPred uid sid pid) = some l := by
    rw [find?_eq_head?_filter]
    show (ownerPidLines uid sid pid s).head? = some l
    rw [hone]
    rfl
  simp only [addToCart, hfind] at hsucc
  split at hsucc
  · exact absurd hsucc (by simp)
  split at hsucc
  · exact absurd hsucc (by simp)
  split at hsucc
  · exact absurd hsucc (by simp)
  · split at hsucc
    · exact absurd hsucc (by simp)
    · split at hsucc
      · exact absurd hsucc (by simp)
      · rw [Prod.mk.injEq] at hsucc
        obtain ⟨hs', hr⟩ := hsucc
        have hrr : r = ⟨l.cart_id, pid, l.quantity + coerceQty q, .updated⟩ :=
          (Except.ok.inj hr).symm
        refine ⟨?_, hrr⟩
        rw [← hs']
        show ((s.cart_items.map (fun x =>
            if x.cart_id == l.cart_id then
              { x with quantity := l.quantity + coerceQty q } else x)).filter
          (ownPred uid sid pid)) = _
        rw [filter_map_comm _ _ _ (by
          intro x hx
          by_cases hid : (x.cart_id == l.cart_id) = true <;>
            simp [hid, ownPred_quantity_invariant])]
        have h1 : s.cart_items.filter (ownPred uid sid pid) = [l] := hone
        rw [h1, List.map_cons, List.map_nil]
        simp

/-- Claim C3: for every owner (an identity must be present) and product,
after any sequence of successful `addToCart` calls starting from a state
with no line for that owner and product, the owner's cart holds at most one
line for the product and the sum of its quantities equals the sum of the
coerced quantities added; and a successful `addToCart` on a state that
already has exactly one such line reports action `updated` and updates that
line in place rather than inserting a second row. -/
theorem addToCart_single_line_accumulates (uid : Option Nat)
    (sid : Option String) (pid : Nat) (hident : uid.isSome ∨ sid.isSome) :
    (∀ (qs : List (Option ℚ)) (s0 s1 : Store),
      ownerPidLines uid sid pid s0 = [] →
      addSeq uid sid pid qs s0 = some s1 →
      (ownerPidLines uid sid pid s1).length ≤ 1 ∧
      ((ownerPidLines uid sid pid s1).map (fun l => l.quantity)).sum =
        (qs.map coerceQty).sum) ∧
    (∀ (q : Option ℚ) (s s' : Store) (r : AddResult) (l : CartLine),
      ownerPidLines uid sid pid s = [l] →
      addToCart uid sid (some pid) q s = (s', .ok r) →
      r.action = .updated ∧
      ownerPidLines uid sid pid s' =
        [{ l with quantity := l.quantity + coerceQty q }]) := by
  have main : ∀ (qs : List (Option ℚ)) (s0 s1 : Store),
      (ownerPidLines uid sid pid s0).length ≤ 1 →
      addSeq uid sid pid qs s0 = some s1 →
      (ownerPidLines uid sid pid s1).length ≤ 1 ∧
      ((ownerPidLines uid sid pid s1).map (fun l => l.quantity)).sum =
        ((ownerPidLines uid sid pid s0).map (fun l => l.quantity)).sum +
          (qs.map coerceQty).sum := by
    intro qs
    induction qs with
    | nil =>
      intro s0 s1 hlen hseq
      have h01 : s0 = s1 := by injection hseq
      subst h01
      simpa using hlen
    | cons q qs ih =>
      intro s0 s1 hlen hseq
      simp only [addSeq] at hseq
      cases hstep : addToCart uid sid (some pid) q s0 with
      | mk st ex =>
        rw [hstep] at hseq
        cases ex with
        | error e => simp at hseq
        | ok r =>
          cases hcase : ownerPidLines uid sid pid s0 with
          | nil =>
            obtain ⟨hlines, -⟩ :=
              addToCart_insert_case uid sid pid q s0 st r hident hcase hstep
            obtain ⟨ih1, ih2⟩ := ih st s1 (by rw [hlines]; simp) hseq
            refine ⟨ih1, ?_⟩
            rw [ih2, hlines]
            simp only [List.map_cons, List.map_nil, List.sum_cons, List.sum_nil]
            omega
          | cons l rest =>
            have hrest : rest = [] := by
              rw [hcase] at hlen
              simpa using hlen
            subst hrest
            obtain ⟨hlines, -⟩ :=
              addToCart_update_case uid sid pid q s0 st r l hcase hstep
            obtain ⟨ih1, ih2⟩ := ih st s1 (by rw [hlines]; simp) hseq
            refine ⟨ih1, ?_⟩
            rw [ih2, hlines]
            simp only [List.map_cons, List.map_nil, List.sum_cons, List.sum_nil]
            omega
  constructor
  · intro qs s0 s1 hempty hseq
    have h := main qs s0 s1 (by rw [hempty]; simp) hseq
    rw [hempty] at h
    simpa using h
  · intro q s s' r l hone hsucc
    obtain ⟨hl, hr⟩ := addToCart_update_case uid sid pid q s s' r l hone hsucc
    exact ⟨by rw [hr], hl⟩

theorem addToCart_single_line_accumulates_witness :
    (ownerPidLines (some 1) none 1
      ((addSeq (some 1) none 1 [none, none] storeC3).getD storeC3)).length ≤ 1 ∧
    ((ownerPidLines (some 1) none 1
      ((addSeq (some 1) none 1 [none, none] storeC3).getD storeC3)).map
        (fun l => l.quantity)).sum = 2 := by
  have h := (addToCart_single_line_accumulates (some 1) none 1 (Or.inl rfl)).1
    [none, none] storeC3
    ((addSeq (some 1) none 1 [none, none] storeC3).getD storeC3)
    (by decide) (by decide)
  refine ⟨h.1, ?_⟩
  rw [h.2]
  decide

/-! ## Claim C4 -/

theorem bumpQty_cart_items (cid : Nat) (dq : Int) (s : Store) :
    (bumpQty cid dq s).cart_items = s.cart_items.map (bumpFun cid dq) := rfl

theorem deleteLine_cart_items (cid : Nat) (s : Store) :
    (deleteLine cid s).cart_items =
      s.cart_items.filter (fun l => ! (l.cart_id == cid)) := rfl

theorem repoint_cart_items (cid : Nat) (uid : Nat) (s : Store) :
    (repoint cid uid s).cart_items = s.cart_items.map (repointFun cid uid) := rfl

theorem bumpFun_cart_id (cid : Nat) (dq : Int) (y : CartLine) :
    (bumpFun cid dq y).cart_id = y.cart_id := by
  unfold bumpFun; split <;> rfl

theorem bumpFun_user (cid : Nat) (dq : Int) (y : CartLine) :
    (bumpFun cid dq y).user_id = y.user_id := by
  unfold bumpFun; split <;> rfl

theorem bumpFun_session (cid : Nat) (dq : Int) (y : CartLine) :
    (bumpFun cid dq y).session_id = y.session_id := by
  unfold bumpFun; split <;> rfl

theorem bumpFun_product (cid : Nat) (dq : Int) (y : CartLine) :
    (bumpFun cid dq y).product_id = y.product_id := by
  unfold bumpFun; split <;> rfl

theorem bumpFun_of_ne (cid : Nat) (dq : Int) {y : CartLine}
    (h : ¬ y.cart_id = cid) : bumpFun cid dq y = y := by
  unfold bumpFun; rw [if_neg (by simp [h])]

theorem bumpFun_self (dq : Int) (y : CartLine) :
    bumpFun y.cart_id dq y = { y with quantity := y.quantity + dq } := by
  unfold bumpFun; rw [if_pos (by simp)]

theorem repointFun_cart_id (cid uid : Nat) (y : CartLine) :
    (repointFun cid uid y).cart_id = y.cart_id := by
  unfold repointFun; split <;> rfl

theorem repointFun_of_ne (cid uid : Nat) {y : CartLine}
    (h : ¬ y.cart_id = cid) : repointFun cid uid y = y := by
  unfold repointFun; rw [if_neg (by simp [h])]

theorem repointFun_self (uid : Nat) (y : CartLine) :
    repointFun y.cart_id uid y =
      { y with user_id := some uid, session_id := none } := by
  unfold repointFun; rw [if_pos (by simp)]

theorem userLinePred_iff (uid pid : Nat) (l : CartLine) :
    userLinePred uid pid l = true ↔
      l.user_id = some uid ∧ l.product_id = pid := by
  simp [userLinePred]

theorem guestFilter_mem {sid : String} {s : Store} {l : CartLine} :
    l ∈ guestFilter sid s ↔ l ∈ s.cart_items ∧ l.session_id = some sid := by
  simp [guestFilter, List.mem_filter]

theorem merge_step_some {sid : String} {uid : Nat} {g : CartLine}
    {gs : List CartLine} {s : Store} {ex : CartLine}
    (hinv : MergeInv sid uid (g :: gs) s)
    (hfind : s.cart_items.find? (userLinePred uid g.product_id) = some ex) :
    MergeInv sid uid gs (deleteLine g.cart_id (bumpQty ex.cart_id g.quantity s)) ∧
    { ex with quantity := ex.quantity + g.quantity } ∈
      (deleteLine g.cart_id (bumpQty ex.cart_id g.quantity s)).cart_items ∧
    ∀ x ∈ (deleteLine g.cart_id (bumpQty ex.cart_id g.quantity s)).cart_items,
      x.cart_id ≠ g.cart_id := by
  have hg_guest : g ∈ guestFilter sid s := by
    rw [hinv.guest]; exact List.mem_cons_self _ _
  obtain ⟨hg_mem, hg_sess⟩ := guestFilter_mem.mp hg_guest
  have hg_user : g.user_id = none := hinv.sess_no_user g hg_mem hg_sess
  have hex_mem : ex ∈ s.cart_items := List.mem_of_find?_eq_some hfind
  obtain ⟨hex_user, hex_prod⟩ :=
    (userLinePred_iff uid g.product_id ex).mp (List.find?_some hfind)
  have hgx : g ≠ ex := by
    intro h; rw [h, hex_user] at hg_user; exact Option.noConfusion hg_user
  have hgxid : ¬ g.cart_id = ex.cart_id := by
    intro h; exact hgx (id_inj_of_nodup hinv.nodup hg_mem hex_mem h)
  have hfB_id := bumpFun_cart_id ex.cart_id g.quantity
  have hnodupB : ((s.cart_items.map (bumpFun ex.cart_id g.quantity)).map
      (fun x => x.cart_id)).Nodup := by
    rw [ids_map_modify _ hfB_id]; exact hinv.nodup
  have hguestB : (s.cart_items.map (bumpFun ex.cart_id g.quantity)).filter
      (fun l => l.session_id == some sid) = g :: gs := by
    rw [filter_map_comm _ _ _ (fun x _ => by rw [bumpFun_session])]
    rw [show s.cart_items.filter (fun l => l.session_id == some sid) = g :: gs
      from hinv.guest]
    apply map_eq_self_of
    intro x hx
    have hx_guest : x ∈ guestFilter sid s := by rw [hinv.guest]; exact hx
    obtain ⟨hx_mem, hx_sess⟩ := guestFilter_mem.mp hx_guest
    have hx_user : x.user_id = none := hinv.sess_no_user x hx_mem hx_sess
    refine bumpFun_of_ne _ _ ?_
    intro h
    have hxe := id_inj_of_nodup hinv.nodup hx_mem hex_mem h
    rw [hxe, hex_user] at hx_user
    exact Option.noConfusion hx_user
  refine ⟨⟨?_, ?_, ?_, ?_, ?_⟩, ?_, ?_⟩
  · rw [deleteLine_cart_items, bumpQty_cart_items]
    exact List.Nodup.sublist (List.Sublist.map _ (List.filter_sublist _)) hnodupB
  · show ((s.cart_items.map (bumpFun ex.cart_id g.quantity)).filter
      (fun l => ! (l.cart_id == g.cart_id))).filter
        (fun l => l.session_id == some sid) = gs
    exact filter_deleteId hnodupB hguestB
  · intro x hx
    rw [deleteLine_cart_items, bumpQty_cart_items] at hx
    obtain ⟨hx1, -⟩ := List.mem_filter.mp hx
    obtain ⟨y, hy, rfl⟩ := List.mem_map.mp hx1
    rw [bumpFun_session, bumpFun_user]
    exact hinv.sess_no_user y hy
  · exact (List.nodup_cons.mp (by simpa using hinv.gprod)).2
  · intro x₁ hx₁ x₂ hx₂ hu₁ hu₂ hne
    rw [deleteLine_cart_items, bumpQty_cart_items] at hx₁ hx₂
    obtain ⟨hx₁m, -⟩ := List.mem_filter.mp hx₁
    obtain ⟨hx₂m, -⟩ := List.mem_filter.mp hx₂
    obtain ⟨y₁, hy₁, rfl⟩ := List.mem_map.mp hx₁m
    obtain ⟨y₂, hy₂, rfl⟩ := List.mem_map.mp hx₂m
    rw [bumpFun_user] at hu₁ hu₂
    rw [bumpFun_product, bumpFun_product]
    exact hinv.uprod y₁ hy₁ y₂ hy₂ hu₁ hu₂ (fun h => hne (by rw [h]))
  · rw [deleteLine_cart_items, bumpQty_cart_items]
    refine List.mem_filter.mpr ⟨?_, ?_⟩
    · have : bumpFun ex.cart_id g.quantity ex =
          { ex with quantity := ex.quantity + g.quantity } := bumpFun_self _ _
      rw [← this]
      exact List.mem_map_of_mem _ hex_mem
    · simp only [Bool.not_eq_true', beq_eq_false_iff_ne, ne_eq]
      intro h
      exact hgxid (by rw [← h])
  · intro x hx
    rw [deleteLine_cart_items] at hx
    obtain ⟨-, hxk⟩ := List.mem_filter.mp hx
    simp only [Bool.not_eq_true', beq_eq_false_iff_ne, ne_eq] at hxk
    exact hxk

theorem merge_step_none {sid : String} {uid : Nat} {g : CartLine}
    {gs : List CartLine} {s : Store}
    (hinv : MergeInv sid uid (g :: gs) s)
    (hfind : s.cart_items.find? (userLinePred uid g.product_id) = none) :
    MergeInv sid uid gs (repoint g.cart_id uid s) ∧
    { g with user_id := some uid, session_id := none } ∈
      (repoint g.cart_id uid s).cart_items := by
  have hg_guest : g ∈ guestFilter sid s := by
    rw [hinv.guest]; exact List.mem_cons_self _ _
  obtain ⟨hg_mem, hg_sess⟩ := guestFilter_mem.mp hg_guest
  have hg_user : g.user_id = none := hinv.sess_no_user g hg_mem hg_sess
  have hnone : ∀ x ∈ s.cart_items, ¬ userLinePred uid g.product_id x :=
    List.find?_eq_none.mp hfind
  have hfR_id := repointFun_cart_id g.cart_id uid
  have hnodupR : ((s.cart_items.map (repointFun g.cart_id uid)).map
      (fun x => x.cart_id)).Nodup := by
    rw [ids_map_modify _ hfR_id]; exact hinv.nodup
  -- characterize user-owned lines of the repointed store
  have hchar : ∀ x ∈ (repoint g.cart_id uid s).cart_items,
      x.user_id = some uid →
      (x = { g with user_id := some uid, session_id := none } ∨
       (x ∈ s.cart_items ∧ x.user_id = some uid ∧
        x.product_id ≠ g.product_id)) := by
    intro x hx hxu
    rw [repoint_cart_items] at hx
    obtain ⟨y, hy, rfl⟩ := List.mem_map.mp hx
    by_cases hid : y.cart_id = g.cart_id
    · have hyg : y = g := id_inj_of_nodup hinv.nodup hy hg_mem hid
      subst hyg
      left
      rw [repointFun_self]
    · right
      rw [repointFun_of_ne _ _ hid] at hxu ⊢
      refine ⟨hy, hxu, ?_⟩
      intro hp
      exact hnone y hy ((userLinePred_iff uid g.product_id y).mpr ⟨hxu, hp⟩)
  refine ⟨⟨?_, ?_, ?_, ?_, ?_⟩, ?_⟩
  · rw [repoint_cart_items]
    exact hnodupR
  · show (s.cart_items.map (repointFun g.cart_id uid)).filter
      (fun l => l.session_id == some sid) = gs
    refine filter_modifyId _ hinv.nodup
      (show s.cart_items.filter (fun l => l.session_id == some sid) = g :: gs
        from hinv.guest) (fun x hx => repointFun_of_ne _ _ hx) ?_
    rw [repointFun_self]
    simp
  · intro x hx
    rw [repoint_cart_items] at hx
    obtain ⟨y, hy, rfl⟩ := List.mem_map.mp hx
    by_cases hid : y.cart_id = g.cart_id
    · have hyg : y = g := id_inj_of_nodup hinv.nodup hy hg_mem hid
      subst hyg
      rw [repointFun_self]
      intro h
      exact absurd h (by simp)
    · rw [repointFun_of_ne _ _ hid]
      exact hinv.sess_no_user y hy
  · exact (List.nodup_cons.mp (by simpa using hinv.gprod)).2
  · intro x₁ hx₁ x₂ hx₂ hu₁ hu₂ hne
    rcases hchar x₁ hx₁ hu₁ with h₁ | ⟨hm₁, hv₁, hp₁⟩
    · rcases hchar x₂ hx₂ hu₂ with h₂ | ⟨hm₂, hv₂, hp₂⟩
      · exact absurd (h₁.trans h₂.symm) hne
      · subst h₁
        exact fun h => hp₂ (by rw [← h])
    · rcases hchar x₂ hx₂ hu₂ with h₂ | ⟨hm₂, hv₂, hp₂⟩
      · subst h₂
        exact fun h => hp₁ (by rw [h])
      · exact hinv.uprod x₁ hm₁ x₂ hm₂ hv₁ hv₂ hne
  · rw [repoint_cart_items]
    rw [show ({ g with user_id := some uid, session_id := none } : CartLine) =
      repointFun g.cart_id uid g from (repointFun_self uid g).symm]
    exact List.mem_map_of_mem _ hg_mem

theorem mergeLoop_ids (uid : Nat) : ∀ (gs : List CartLine) (s : Store),
    ∀ l ∈ (mergeLoop uid gs s).cart_items,
      ∃ x ∈ s.cart_items, l.cart_id = x.cart_id := by
  intro gs
  induction gs with
  | nil => intro s l hl; exact ⟨l, hl, rfl⟩
  | cons g t ih =>
    intro s l hl
    cases hfind : s.cart_items.find? (userLinePred uid g.product_id) with
    | some ex =>
      rw [show mergeLoop uid (g :: t) s = mergeLoop uid t
          (deleteLine g.cart_id (bumpQty ex.cart_id g.quantity s)) by
        simp only [mergeLoop, hfind]] at hl
      obtain ⟨x, hx, hlx⟩ := ih _ l hl
      rw [deleteLine_cart_items] at hx
      obtain ⟨hx1, -⟩ := List.mem_filter.mp hx
      rw [bumpQty_cart_items] at hx1
      obtain ⟨y, hy, rfl⟩ := List.mem_map.mp hx1
      exact ⟨y, hy, by rw [hlx, bumpFun_cart_id]⟩
    | none =>
      rw [show mergeLoop uid (g :: t) s = mergeLoop uid t
          (repoint g.cart_id uid s) by simp only [mergeLoop, hfind]] at hl
      obtain ⟨x, hx, hlx⟩ := ih _ l hl
      rw [repoint_cart_items] at hx
      obtain ⟨y, hy, rfl⟩ := List.mem_map.mp hx
      exact ⟨y, hy, by rw [hlx, repointFun_cart_id]⟩

theorem mergeLoop_frame (sid : String) (uid : Nat) :
    ∀ (gs : List CartLine) (s : Store), MergeInv sid uid gs s →
    ∀ l ∈ s.cart_items, l.user_id = some uid →
    (∀ g ∈ gs, l.product_id ≠ g.product_id) →
    l ∈ (mergeLoop uid gs s).cart_items := by
  intro gs
  induction gs with
  | nil => intro s _ l hl _ _; exact hl
  | cons g t ih =>
    intro s hinv l hl hlu hlp
    have hg_guest : g ∈ guestFilter sid s := by
      rw [hinv.guest]; exact List.mem_cons_self _ _
    obtain ⟨hg_mem, hg_sess⟩ := guestFilter_mem.mp hg_guest
    have hg_user : g.user_id = none := hinv.sess_no_user g hg_mem hg_sess
    have hlg : ¬ l.cart_id = g.cart_id := by
      intro h
      have hle := id_inj_of_nodup hinv.nodup hl hg_mem h
      rw [hle, hg_user] at hlu; exact Option.noConfusion hlu
    cases hfind : s.cart_items.find? (userLinePred uid g.product_id) with
    | some ex =>
      have hstep := merge_step_some hinv hfind
      have hex_mem : ex ∈ s.cart_items := List.mem_of_find?_eq_some hfind
      obtain ⟨hex_user, hex_prod⟩ :=
        (userLinePred_iff uid g.product_id ex).mp (List.find?_some hfind)
      have hlex : ¬ l.cart_id = ex.cart_id := by
        intro h
        have hle := id_inj_of_nodup hinv.nodup hl hex_mem h
        exact (hlp g (List.mem_cons_self _ _)) (by rw [hle, hex_prod])
      have hl2 : l ∈ (deleteLine g.cart_id
          (bumpQty ex.cart_id g.quantity s)).cart_items := by
        rw [deleteLine_cart_items, bumpQty_cart_items]
        refine List.mem_filter.mpr ⟨?_, by simp [hlg]⟩
        rw [show l = bumpFun ex.cart_id g.quantity l from
          (bumpFun_of_ne _ _ hlex).symm]
        exact List.mem_map_of_mem _ hl
      have hres := ih _ hstep.1 l hl2 hlu
        (fun g' hg' => hlp g' (List.mem_cons_of_mem _ hg'))
      rw [show mergeLoop uid (g :: t) s = mergeLoop uid t
          (deleteLine g.cart_id (bumpQty ex.cart_id g.quantity s)) by
        simp only [mergeLoop, hfind]]
      exact hres
    | none =>
      have hstep := merge_step_none hinv hfind
      have hl1 : l ∈ (repoint g.cart_id uid s).cart_items := by
        rw [repoint_cart_items]
        rw [show l = repointFun g.cart_id uid l from
          (repointFun_of_ne _ _ hlg).symm]
        exact List.mem_map_of_mem _ hl
      have hres := ih _ hstep.1 l hl1 hlu
        (fun g' hg' => hlp g' (List.mem_cons_of_mem _ hg'))
      rw [show mergeLoop uid (g :: t) s = mergeLoop uid t
          (repoint g.cart_id uid s) by simp only [mergeLoop, hfind]]
      exact hres

theorem find_stable_some {sid : String} {uid : Nat} {g : CartLine}
    {gs : List CartLine} {s : Store} {ex : CartLine}
    (hinv : MergeInv sid uid (g :: gs) s)
    (hfind : s.cart_items.find? (userLinePred uid g.product_id) = some ex)
    (pid' : Nat) (hp : pid' ≠ g.product_id) :
    (deleteLine g.cart_id (bumpQty ex.cart_id g.quantity s)).cart_items.find?
      (userLinePred uid pid') =
      s.cart_items.find? (userLinePred uid pid') := by
  have hg_guest : g ∈ guestFilter sid s := by
    rw [hinv.guest]; exact List.mem_cons_self _ _
  obtain ⟨hg_mem, hg_sess⟩ := guestFilter_mem.mp hg_guest
  have hg_user : g.user_id = none := hinv.sess_no_user g hg_mem hg_sess
  have hex_mem : ex ∈ s.cart_items := List.mem_of_find?_eq_some hfind
  obtain ⟨hex_user, hex_prod⟩ :=
    (userLinePred_iff uid g.product_id ex).mp (List.find?_some hfind)
  rw [deleteLine_cart_items, bumpQty_cart_items]
  have hdrop : ∀ x ∈ s.cart_items.map (bumpFun ex.cart_id g.quantity),
      (! (x.cart_id == g.cart_id)) = false →
      userLinePred uid pid' x = false := by
    intro x hx hxid
    obtain ⟨y, hy, rfl⟩ := List.mem_map.mp hx
    simp only [Bool.not_eq_false', beq_iff_eq] at hxid
    rw [bumpFun_cart_id] at hxid
    have hyg : y = g := id_inj_of_nodup hinv.nodup hy hg_mem hxid
    subst hyg
    simp [userLinePred, bumpFun_user, hg_user]
  rw [find?_filter_comm _ _ _ hdrop]
  have hptwise : ∀ x ∈ s.cart_items,
      userLinePred uid pid' (bumpFun ex.cart_id g.quantity x) =
        userLinePred uid pid' x := by
    intro x _
    unfold userLinePred
    rw [bumpFun_user, bumpFun_product]
  rw [find?_map_comm _ _ _ hptwise]
  cases hy : s.cart_items.find? (userLinePred uid pid') with
  | none => rfl
  | some y =>
    have hy_mem := List.mem_of_find?_eq_some hy
    obtain ⟨hyu, hyp⟩ := (userLinePred_iff uid pid' y).mp (List.find?_some hy)
    have hyex : ¬ y.cart_id = ex.cart_id := by
      intro h
      have hye := id_inj_of_nodup hinv.nodup hy_mem hex_mem h
      exact hp (by rw [← hyp, hye, hex_prod])
    simp [bumpFun_of_ne _ _ hyex]

theorem find_stable_none {sid : String} {uid : Nat} {g : CartLine}
    {gs : List CartLine} {s : Store}
    (hinv : MergeInv sid uid (g :: gs) s)
    (hfind : s.cart_items.find? (userLinePred uid g.product_id) = none)
    (pid' : Nat) (hp : pid' ≠ g.product_id) :
    (repoint g.cart_id uid s).cart_items.find? (userLinePred uid pid') =
      s.cart_items.find? (userLinePred uid pid') := by
  have hg_guest : g ∈ guestFilter sid s := by
    rw [hinv.guest]; exact List.mem_cons_self _ _
  obtain ⟨hg_mem, hg_sess⟩ := guestFilter_mem.mp hg_guest
  have hg_user : g.user_id = none := hinv.sess_no_user g hg_mem hg_sess
  rw [repoint_cart_items]
  have hptwise : ∀ x ∈ s.cart_items,
      userLinePred uid pid' (repointFun g.cart_id uid x) =
        userLinePred uid pid' x := by
    intro x hx
    by_cases hid : x.cart_id = g.cart_id
    · have hxg : x = g := id_inj_of_nodup hinv.nodup hx hg_mem hid
      subst hxg
      rw [repointFun_self]
      simp [userLinePred, hg_user, Ne.symm hp]
    · rw [repointFun_of_ne _ _ hid]
  rw [find?_map_comm _ _ _ hptwise]
  cases hy : s.cart_items.find? (userLinePred uid pid') with
  | none => rfl
  | some y =>
    have hy_mem := List.mem_of_find?_eq_some hy
    obtain ⟨hyu, hyp⟩ := (userLinePred_iff uid pid' y).mp (List.find?_some hy)
    have hyg : ¬ y.cart_id = g.cart_id := by
      intro h
      have hye := id_inj_of_nodup hinv.nodup hy_mem hg_mem h
      rw [hye, hg_user] at hyu; exact Option.noConfusion hyu
    simp [repointFun_of_ne _ _ hyg]

theorem mergeLoop_spec (sid : String) (uid : Nat) :
    ∀ (gs : List CartLine) (s : Store), MergeInv sid uid gs s →
    guestFilter sid (mergeLoop uid gs s) = [] ∧
    ∀ g ∈ gs,
      (∀ ex, s.cart_items.find? (userLinePred uid g.product_id) = some ex →
        { ex with quantity := ex.quantity + g.quantity } ∈
          (mergeLoop uid gs s).cart_items ∧
        ∀ l ∈ (mergeLoop uid gs s).cart_items, l.cart_id ≠ g.cart_id) ∧
      (s.cart_items.find? (userLinePred uid g.product_id) = none →
        { g with user_id := some uid, session_id := none } ∈
          (mergeLoop uid gs s).cart_items) := by
  intro gs
  induction gs with
  | nil =>
    intro s hinv
    exact ⟨hinv.guest, fun g hg => absurd hg (List.not_mem_nil _)⟩
  | cons g t ih =>
    intro s hinv
    have hgprod : g.product_id ∉ t.map (fun l => l.product_id) := by
      have hh := hinv.gprod
      rw [List.map_cons, List.nodup_cons] at hh
      exact hh.1
    cases hfind : s.cart_items.find? (userLinePred uid g.product_id) with
    | some ex =>
      obtain ⟨hinv2, hexmem, hnoid⟩ := merge_step_some hinv hfind
      obtain ⟨ihA, ihB⟩ := ih _ hinv2
      rw [show mergeLoop uid (g :: t) s = mergeLoop uid t
          (deleteLine g.cart_id (bumpQty ex.cart_id g.quantity s)) by
        simp only [mergeLoop, hfind]]
      refine ⟨ihA, ?_⟩
      intro g' hg'
      rcases List.mem_cons.mp hg' with rfl | hg't
      · refine ⟨?_, ?_⟩
        · intro ex' hex'
          rw [hfind] at hex'
          obtain rfl : ex = ex' := Option.some.inj hex'
          obtain ⟨hex_user, hex_prod⟩ :=
            (userLinePred_iff uid g'.product_id ex).mp (List.find?_some hfind)
          constructor
          · refine mergeLoop_frame sid uid t _ hinv2 _ hexmem hex_user ?_
            intro g₂ hg₂
            have hpe : ({ ex with quantity := ex.quantity + g'.quantity} :
              CartLine).product_id = ex.product_id := rfl
            rw [hpe, hex_prod]
            intro h
            exact hgprod (by rw [h]; exact List.mem_map_of_mem _ hg₂)
          · intro l hl
            obtain ⟨x, hx, hlid⟩ := mergeLoop_ids uid t _ l hl
            rw [hlid]
            exact hnoid x hx
        · intro hnone
          rw [hfind] at hnone
          exact absurd hnone (by simp)
      · have hp' : g'.product_id ≠ g.product_id := by
          intro h
          exact hgprod (by rw [← h]; exact List.mem_map_of_mem _ hg't)
        have hstab := find_stable_some hinv hfind g'.product_id hp'
        obtain ⟨ihB1, ihB2⟩ := ihB g' hg't
        refine ⟨?_, ?_⟩
        · intro ex' hex'
          exact ihB1 ex' (by rw [hstab]; exact hex')
        · intro hnone
          exact ihB2 (by rw [hstab]; exact hnone)
    | none =>
      obtain ⟨hinv1, hgmem'⟩ := merge_step_none hinv hfind
      obtain ⟨ihA, ihB⟩ := ih _ hinv1
      rw [show mergeLoop uid (g :: t) s = mergeLoop uid t
          (repoint g.cart_id uid s) by simp only [mergeLoop, hfind]]
      refine ⟨ihA, ?_⟩
      intro g' hg'
      rcases List.mem_cons.mp hg' with rfl | hg't
      · refine ⟨?_, ?_⟩
        · intro ex' hex'
          rw [hfind] at hex'
          exact absurd hex' (by simp)
        · intro _
          refine mergeLoop_frame sid uid t _ hinv1 _ hgmem' rfl ?_
          intro g₂ hg₂
          intro h
          have h' : g'.product_id = g₂.product_id := h
          exact hgprod (by rw [h']; exact List.mem_map_of_mem _ hg₂)
      · have hp' : g'.product_id ≠ g.product_id := by
          intro h
          exact hgprod (by rw [← h]; exact List.mem_map_of_mem _ hg't)
        have hstab := find_stable_none hinv hfind g'.product_id hp'
        obtain ⟨ihB1, ihB2⟩ := ihB g' hg't
        refine ⟨?_, ?_⟩
        · intro ex' hex'
          exact ihB1 ex' (by rw [hstab]; exact hex')
        · intro hnone
          exact ihB2 (by rw [hstab]; exact hnone)

/-- Claim C4: for every store satisfying the data-model invariants (unique
cart ids, session-keyed lines carry no user key, at most one guest line and
at most one user line per product), `mergeGuestCart` merges every guest
line whose product the user already has — the user line's quantity grows by
the guest line's quantity and the guest row is deleted — re-points every
other guest line to the user with its session key cleared, and leaves zero
lines owned by the guest session. -/
theorem mergeGuestCart_merges_and_clears_guest (sid : String) (uid : Nat)
    (s : Store)
    (hnodup : (s.cart_items.map (fun l => l.cart_id)).Nodup)
    (hsess : ∀ l ∈ s.cart_items, l.session_id = some sid → l.user_id = none)
    (hgprod : ((guestFilter sid s).map (fun l => l.product_id)).Nodup)
    (huprod : ∀ l₁ ∈ s.cart_items, ∀ l₂ ∈ s.cart_items,
      l₁.user_id = some uid → l₂.user_id = some uid → l₁ ≠ l₂ →
      l₁.product_id ≠ l₂.product_id) :
    guestFilter sid (mergeGuestCart sid uid s) = [] ∧
    ∀ g ∈ guestFilter sid s,
      (∀ ex, s.cart_items.find? (userLinePred uid g.product_id) = some ex →
        { ex with quantity := ex.quantity + g.quantity } ∈
          (mergeGuestCart sid uid s).cart_items ∧
        ∀ l ∈ (mergeGuestCart sid uid s).cart_items, l.cart_id ≠ g.cart_id) ∧
      (s.cart_items.find? (userLinePred uid g.product_id) = none →
        { g with user_id := some uid, session_id := none } ∈
          (mergeGuestCart sid uid s).cart_items) := by
  have hinv : MergeInv sid uid (guestFilter sid s) s :=
    ⟨hnodup, rfl, hsess, hgprod, huprod⟩
  unfold mergeGuestCart
  by_cases hemp : (guestFilter sid s).isEmpty
  · rw [if_pos hemp]
    have hge : guestFilter sid s = [] := List.isEmpty_iff.mp hemp
    exact ⟨hge, by rw [hge]; intro g hg; exact absurd hg (List.not_mem_nil _)⟩
  · rw [if_neg hemp]
    exact mergeLoop_spec sid uid (guestFilter sid s) s hinv

theorem mergeGuestCart_merges_and_clears_guest_witness :
    guestFilter "g" (mergeGuestCart "g" 9 storeC4) = [] ∧
    (({ cart_id := 1, user_id := some 9, session_id := none, product_id := 1,
        quantity := 3 } : CartLine) ∈
      (mergeGuestCart "g" 9 storeC4).cart_items ∧
     ∀ l ∈ (mergeGuestCart "g" 9 storeC4).cart_items, l.cart_id ≠ 2) ∧
    ({ cart_id := 3, user_id := some 9, session_id := none, product_id := 2,
        quantity := 1 } : CartLine) ∈
      (mergeGuestCart "g" 9 storeC4).cart_items := by
  have h := mergeGuestCart_merges_and_clears_guest "g" 9 storeC4
    (by decide) (by decide) (by decide) (by decide)
  refine ⟨h.1, ?_, ?_⟩
  · exact (h.2 ⟨2, none, some "g", 1, 2⟩ (by decide)).1
      ⟨1, some 9, none, 1, 1⟩ (by decide)
  · exact (h.2 ⟨3, none, some "g", 2, 1⟩ (by decide)).2 (by decide)

/-! ## Claim C5 -/

/-- Claim C5 counterexample: the whole merge loop sits in one try/catch, so
a failure while merging the FIRST guest line (here: its DELETE, operation 3)
aborts the merging of the remaining lines.  On `storeC5` the failing run
leaves the second guest line (product 2) completely unmerged — still owned
by the session — while a failure-free run merges everything and leaves zero
guest lines. -/
theorem mergeGuestCart_failure_aborts_rest :
    (mergeGuestCartF (fun k => k == 3) "g" 5 storeC5).cart_items =
      [⟨1, some 5, none, 1, 3⟩, ⟨2, none, some "g", 1, 2⟩,
       ⟨3, none, some "g", 2, 1⟩] ∧
    guestFilter "g" (mergeGuestCartF (fun k => k == 3) "g" 5 storeC5) =
      [⟨2, none, some "g", 1, 2⟩, ⟨3, none, some "g", 2, 1⟩] ∧
    guestFilter "g" (mergeGuestCartF (fun _ => false) "g" 5 storeC5) = [] := by
  refine ⟨?_, ?_, ?_⟩ <;> decide

theorem mergeLoopF_nofail (uid : Nat) : ∀ (gs : List CartLine) (k : Nat)
    (s : Store),
    mergeLoopF (fun _ => false) uid gs k s = (mergeLoop uid gs s, .ok ()) := by
  intro gs
  induction gs with
  | nil => intro k s; rfl
  | cons g t ih =>
    intro k s
    simp only [mergeLoopF, mergeLoop]
    cases hfind : s.cart_items.find? (userLinePred uid g.product_id) with
    | some ex => simp [ih]
    | none => simp [ih]

/-- Claim C5 amended: a failure while merging one guest line aborts the
merging of the remaining lines (see the counterexample), but no merge
failure is ever surfaced to the login caller: for every failure oracle the
login step completes successfully (its catch block swallows the error), and
when no operation fails the fallible merge coincides with the pure
`mergeGuestCart`. -/
theorem mergeGuestCart_swallows_failures (fails : Nat → Bool) (g : String)
    (uid : Nat) (s : Store) :
    (loginCartMerge fails (some g) uid s).2 = true ∧
    (loginCartMerge fails none uid s).2 = true ∧
    mergeGuestCartF (fun _ => false) g uid s = mergeGuestCart g uid s := by
  refine ⟨rfl, rfl, ?_⟩
  unfold mergeGuestCartF mergeGuestCart
  by_cases hemp : (guestFilter g s).isEmpty
  · simp [hemp]
  · simp [hemp, mergeLoopF_nofail]

end Shop
